import Mathlib

/-!
Verification of the render-stream protocol decoder of blenderseed (render.py).

The decoder reads a chunked binary stream from a child renderer process over a
pipe (`os.read`), reconstructs image tiles and highlight overlays, clips them
against a render window, flips coordinates, and delivers pixel rectangles to
Blender's display sink (`begin_result` / `end_result`).

The embedding below mirrors `RenderAppleseed.__render_project_file`,
`__process_tile_data_chunk`, `__process_tile_highlight_chunk`,
`__draw_hline` and `__draw_vline`:
  * bytes are `Nat`s below 256, streams carry the bytes the child process will
    ever write plus a per-call delivery cap modelling partial pipe reads;
  * `struct.unpack` of fixed-width little-endian uint32 fields becomes
    length-checked parsers returning `Option` (Python raises on short input);
  * Python's unbounded ints become `Int` (tile/window arithmetic can go
    negative, e.g. `tile_x + tile_w - 1` when `tile_w = 0`);
  * 32-bit float samples are kept as their bit patterns (`Nat` words); the
    decoder only moves samples around, it never computes with them;
  * the busy-wait payload loop (`while len(tile_data) < tile_size and not
    self.test_break()`) is given explicit fuel, `none` meaning the loop has
    not exited within that fuel.
-/

/-! ## Little-endian 32-bit fields and `struct.unpack` -/

/-- Value of four little-endian bytes, as `struct.unpack` decodes a uint32. -/
def le32 (a b c d : Nat) : Nat := a + 256 * b + 65536 * c + 16777216 * d

/-- The four little-endian bytes of a 32-bit value (producer side encoding). -/
def encU32 (v : Nat) : List Nat :=
  [v % 256, v / 256 % 256, v / 65536 % 256, v / 16777216 % 256]

/-- Embeds `struct.unpack("II", bs)`: exactly 8 bytes or a `struct.error` (`none`). -/
def unpackII : List Nat → Option (Nat × Nat)
  | [a, b, c, d, e, f, g, h] => some (le32 a b c d, le32 e f g h)
  | _ => none

/-- Embeds `struct.unpack("IIII", bs)`: exactly 16 bytes or a `struct.error`. -/
def unpackIIII : List Nat → Option (Nat × Nat × Nat × Nat)
  | [a, b, c, d, e, f, g, h, i, j, k, l, m, n, o, p] =>
      some (le32 a b c d, le32 e f g h, le32 i j k l, le32 m n o p)
  | _ => none

/-- Embeds `struct.unpack("IIIII", bs)`: exactly 20 bytes or a `struct.error`. -/
def unpackIIIII : List Nat → Option (Nat × Nat × Nat × Nat × Nat)
  | [a, b, c, d, e, f, g, h, i, j, k, l, m, n, o, p, q, r, s, t] =>
      some (le32 a b c d, le32 e f g h, le32 i j k l, le32 m n o p, le32 q r s t)
  | _ => none

/-- Embeds `array.array('f').fromstring(data)`: group the payload bytes four at a
time into 32-bit sample words (bit patterns of the floats). -/
def bytesToWords : List Nat → List Nat
  | a :: b :: c :: d :: rest => le32 a b c d :: bytesToWords rest
  | _ => []

/-! ## The byte source (`process.stdout` read via `os.read`) -/

/-- The pipe: `data` is everything the child process will ever write before
closing its end; `caps` bounds how many bytes the OS delivers on each
successive `os.read` call (a pipe may return fewer bytes than requested).
An exhausted `caps` list means subsequent reads are not artificially capped. -/
structure PipeStream where
  data : List Nat
  caps : List Nat
  deriving Repr, DecidableEq

/-- Embeds `os.read(fd, n)`: delivers up to `n` bytes (further limited by the current
delivery cap and by how much data is left); returns `[]` exactly when the
writer has closed the pipe (`data = []`). -/
def osRead (s : PipeStream) (n : Nat) : List Nat × PipeStream :=
  let k := min n (s.caps.headD n)
  (s.data.take k, ⟨s.data.drop k, s.caps.tail⟩)

/-! ## Render window and clipping (`__process_tile_data_chunk` lines 269-298) -/

/-- The render window `min_x .. max_x`, `min_y .. max_y`, inclusive bounds. -/
structure Window where
  min_x : Int
  min_y : Int
  max_x : Int
  max_y : Int
  deriving Repr, DecidableEq

/-- The test behind "Ignore tiles completely outside the render window": the two early-return
tests of `__process_tile_data_chunk` / `__process_tile_highlight_chunk`. -/
def tileOutside (win : Window) (tile_x tile_y tile_w tile_h : Nat) : Bool :=
  ((tile_x : Int) > win.max_x) || ((tile_x : Int) + tile_w - 1 < win.min_x) ||
  ((tile_y : Int) > win.max_y) || ((tile_y : Int) + tile_h - 1 < win.min_y)

/-- Everything both chunk processors derive from the tile/window intersection:
image-space intersection `ix0..iy1`, the rows/columns to skip and take in the
incoming tile, and the window-space (destination) coordinates `x0, y0`
(data path) and `x1, y1` (highlight path). -/
structure Clip where
  ix0 : Int
  iy0 : Int
  ix1 : Int
  iy1 : Int
  skip_x : Int
  skip_y : Int
  take_x : Int
  take_y : Int
  x0 : Int
  y0 : Int
  x1 : Int
  y1 : Int
  deriving Repr, DecidableEq

/-- The intersection arithmetic shared by both chunk processors. -/
def clipTile (win : Window) (tile_x tile_y tile_w tile_h : Nat) : Clip :=
  let ix0 := max (tile_x : Int) win.min_x
  let iy0 := max (tile_y : Int) win.min_y
  let ix1 := min ((tile_x : Int) + tile_w - 1) win.max_x
  let iy1 := min ((tile_y : Int) + tile_h - 1) win.max_y
  { ix0 := ix0, iy0 := iy0, ix1 := ix1, iy1 := iy1
    skip_x := ix0 - tile_x, skip_y := iy0 - tile_y
    take_x := ix1 - ix0 + 1, take_y := iy1 - iy0 + 1
    x0 := ix0 - win.min_x, y0 := win.max_y - iy1
    x1 := ix1 - win.min_x, y1 := win.max_y - iy0 }

/-! ## Pixel extraction (`__process_tile_data_chunk` lines 287-294) -/

/-- The slice `floats[p * 4 : p * 4 + 4]` the code takes for pixel index `p`
(a hardcoded four samples per pixel; Python slices clamp out-of-range). -/
def pixelAt (floats : List Nat) (p : Nat) : List Nat :=
  (floats.drop (p * 4)).take 4

/-- One destination row: `floats[start_pix*4 : ...]` for
`start_pix = (skip_y + y) * tile_w + skip_x`, `take_x` pixels rightwards. -/
def rowPixels (floats : List Nat) (tile_w skip_x skip_y take_x : Nat) (y : Nat) :
    List (List Nat) :=
  (List.range take_x).map fun i => pixelAt floats ((skip_y + y) * tile_w + skip_x + i)

/-- The `pix` list built by the `for y in range(take_y - 1, -1, -1)` loop:
rows of the clipped tile emitted bottom-up (source row order reversed). -/
def extractPix (floats : List Nat) (tile_w skip_x skip_y take_x take_y : Nat) :
    List (List Nat) :=
  ((List.range take_y).reverse.map (rowPixels floats tile_w skip_x skip_y take_x)).flatten

/-- Source row `y` of a tile of width `w`, with the code's four-samples-per-
pixel slicing: the reference the reversed destination rows are compared to. -/
def srcRowPixels (floats : List Nat) (w y : Nat) : List (List Nat) :=
  (List.range w).map fun i => pixelAt floats (y * w + i)

/-! ## The display sink (`begin_result` / `layer.rect` / `end_result`) -/

/-- One `begin_result(x, y, w, h)` / `rect := pix` / `end_result` unit. -/
structure SinkCall where
  x : Int
  y : Int
  w : Int
  h : Int
  pix : List (List Nat)
  deriving Repr, DecidableEq

/-- IEEE-754 bit pattern of `1.0f`: the bracket color channel value. -/
def float1bits : Nat := 1065353216

/-- The `bracket_color = [1.0, 1.0, 1.0, 1.0]` value as sample words. -/
def bracketColor : List Nat := [float1bits, float1bits, float1bits, float1bits]

/-- Embeds `__draw_hline(x, y, length, color)`: a `length`-by-1 solid rectangle. -/
def drawHline (x y len : Int) (color : List Nat) : SinkCall :=
  ⟨x, y, len, 1, List.replicate len.toNat color⟩

/-- Embeds `__draw_vline(x, y, length, color)`: a 1-by-`length` solid rectangle. -/
def drawVline (x y len : Int) (color : List Nat) : SinkCall :=
  ⟨x, y, 1, len, List.replicate len.toNat color⟩

/-- The eight corner-bracket segments drawn for a clipped highlight rectangle
`{x0, y0, x1, y1}` (lines 338-360): arm lengths clamp to the rectangle. -/
def highlightSegs (x0 y0 x1 y1 : Int) : List SinkCall :=
  let bracket_extent : Int := 5
  let bracket_width := min bracket_extent (x1 - x0 + 1)
  let bracket_height := min bracket_extent (y1 - y0 + 1)
  [ drawHline x0 y1 bracket_width bracketColor,
    drawVline x0 (y1 - bracket_height + 1) bracket_height bracketColor,
    drawHline (x1 - bracket_width + 1) y1 bracket_width bracketColor,
    drawVline x1 (y1 - bracket_height + 1) bracket_height bracketColor,
    drawHline x0 y0 bracket_width bracketColor,
    drawVline x0 y0 bracket_height bracketColor,
    drawHline (x1 - bracket_width + 1) y0 bracket_width bracketColor,
    drawVline x1 y0 bracket_height bracketColor ]

/-! ## Driver state and per-chunk effects -/

/-- The counters `self.rendered_pixels` / `self.total_pixels` (Python ints). -/
structure DriverState where
  rendered : Int
  total : Int
  deriving Repr, DecidableEq

/-- Embeds `self.total_pixels = (max_x - min_x + 1) * (max_y - min_y + 1) *
scene.appleseed.renderer_passes` (line 193). -/
def totalPixels (win : Window) (passes : Nat) : Int :=
  (win.max_x - win.min_x + 1) * (win.max_y - win.min_y + 1) * passes

/-- Everything `__process_tile_data_chunk` does after the payload is in hand
(lines 269-310): the returned `Bool` is the method's return value, then the
updated driver state and the display-sink calls made. -/
def tileDataEffect (win : Window) (tile_x tile_y tile_w tile_h : Nat)
    (floats : List Nat) (st : DriverState) :
    Bool × DriverState × List SinkCall :=
  if tileOutside win tile_x tile_y tile_w tile_h then (true, st, [])
  else
    let c := clipTile win tile_x tile_y tile_w tile_h
    let pix := extractPix floats tile_w c.skip_x.toNat c.skip_y.toNat
      c.take_x.toNat c.take_y.toNat
    (true, ⟨st.rendered + c.take_x * c.take_y, st.total⟩,
      [⟨c.x0, c.y0, c.take_x, c.take_y, pix⟩])

/-- Everything `__process_tile_highlight_chunk` does after its header is in
hand (lines 320-362). -/
def tileHighlightEffect (win : Window) (tile_x tile_y tile_w tile_h : Nat) :
    Bool × List SinkCall :=
  if tileOutside win tile_x tile_y tile_w tile_h then (true, [])
  else
    let c := clipTile win tile_x tile_y tile_w tile_h
    (true, highlightSegs c.x0 c.y0 c.x1 c.y1)

/-! ## The payload read loop (lines 259-263) -/

/-- Embeds `while len(tile_data) < tile_size and not self.test_break():
      tile_data += os.read(...)`.
`cancel` is `self.test_break` as a function of the call index `ci`; `fuel`
bounds the number of loop iterations examined, `none` meaning the loop has
not exited within that many iterations.  On exit, the collected bytes, the
remaining stream and the next call index are returned. -/
def payloadLoop (cancel : Nat → Bool) :
    Nat → Nat → List Nat → PipeStream → Nat → Option (List Nat × PipeStream × Nat)
  | 0, _, _, _, _ => none
  | fuel + 1, size, acc, s, ci =>
    if size ≤ acc.length then some (acc, s, ci)
    else if cancel ci then some (acc, s, ci + 1)
    else
      let (bs, s') := osRead s (size - acc.length)
      payloadLoop cancel fuel size (acc ++ bs) s' (ci + 1)

/-- Outcome of one `__process_tile_data_chunk` call. -/
inductive TDResult where
  /-- The payload `while` loop has not exited within the given fuel. -/
  | stuck
  /-- A `struct.unpack` error was raised on a short 20-byte header read. -/
  | headerShort
  /-- The method hit `return False` (cancellation seen after the payload loop). -/
  | stop (s : PipeStream) (ci : Nat)
  /-- The method hit `return True`: updated state, stream, sink calls made. -/
  | ok (st : DriverState) (s : PipeStream) (calls : List SinkCall) (ci : Nat)
  deriving Repr, DecidableEq

/-- Embeds `__process_tile_data_chunk` (lines 248-310): single 20-byte header read,
the payload accumulation loop, the post-loop cancellation check, then the
clip / extract / emit / progress-update tail. -/
def processTileDataChunk (cancel : Nat → Bool) (fuel : Nat) (win : Window)
    (st : DriverState) (s : PipeStream) (ci : Nat) : TDResult :=
  let (hb, s1) := osRead s 20
  match unpackIIIII hb with
  | none => .headerShort
  | some (tile_x, tile_y, tile_w, tile_h, tile_c) =>
    let tile_size := tile_w * tile_h * tile_c * 4
    match payloadLoop cancel fuel tile_size [] s1 ci with
    | none => .stuck
    | some (tile_data, s2, ci2) =>
      if cancel ci2 then .stop s2 (ci2 + 1)
      else
        let e := tileDataEffect win tile_x tile_y tile_w tile_h
          (bytesToWords tile_data) st
        .ok e.2.1 s2 e.2.2 (ci2 + 1)

/-- Embeds `__process_tile_highlight_chunk` (lines 312-362): single 16-byte header
read, then the clip / bracket tail; `none` is a `struct.unpack` error. -/
def processTileHighlightChunk (win : Window) (s : PipeStream) :
    Option (Bool × PipeStream × List SinkCall) :=
  let (hb, s1) := osRead s 16
  match unpackIIII hb with
  | none => none
  | some (tile_x, tile_y, tile_w, tile_h) =>
    let e := tileHighlightEffect win tile_x tile_y tile_w tile_h
    some (e.1, s1, e.2)

/-- The single-`os.read` chunk-header step (lines 214-222): outer `none` is
the clean end-of-stream `break`; `some none` is a `struct.unpack` error on a
short (but non-empty) read. -/
def readChunkHeader (s : PipeStream) : Option (Option (Nat × Nat)) × PipeStream :=
  let (hb, s') := osRead s 8
  if hb = [] then (none, s') else (some (unpackII hb), s')

/-! ## The stream-driver loop (`__render_project_file` lines 213-238) -/

/-- Why the `while not self.test_break()` loop of `__render_project_file`
exited. -/
inductive ExitReason where
  /-- Call `self.test_break()` was true at the top of the loop. -/
  | cancelled
  /-- Read `os.read` returned no bytes for the chunk header (`break`, line 217). -/
  | eos
  /-- a chunk processor returned `False` (`break`, lines 227 / 231). -/
  | stopped
  deriving Repr, DecidableEq

/-- Result of running the driver loop. -/
inductive RunResult where
  /-- the loop exited; `process.kill()` follows on every such path. -/
  | done (st : DriverState) (s : PipeStream) (ci : Nat) (r : ExitReason)
  /-- the payload loop (or the outer loop) exceeded its fuel. -/
  | stuck
  /-- a `struct.unpack` error escaped. -/
  | err
  deriving Repr, DecidableEq

/-- The chunk loop of `__render_project_file`: per iteration, one cancellation
poll, one single-`os.read` chunk-header read (empty read = clean end of
stream), a `struct.unpack("II")` decode, then dispatch on the chunk type —
`1` tile data, `2` tile highlight, anything else a single `os.read` of
`chunk_size` bytes and `continue`.  The second component collects every
display-sink call made, in order. -/
def renderLoop (cancel : Nat → Bool) (pfuel : Nat) (win : Window) :
    Nat → DriverState → PipeStream → Nat → RunResult × List SinkCall
  | 0, _, _, _ => (.stuck, [])
  | fuel + 1, st, s, ci =>
    if cancel ci then (.done st s (ci + 1) .cancelled, [])
    else
      let (hb, s1) := osRead s 8
      if hb = [] then (.done st s1 (ci + 1) .eos, [])
      else
        match unpackII hb with
        | none => (.err, [])
        | some (chunk_type, chunk_size) =>
          if chunk_type = 1 then
            match processTileDataChunk cancel pfuel win st s1 (ci + 1) with
            | .stuck => (.stuck, [])
            | .headerShort => (.err, [])
            | .stop s2 ci2 => (.done st s2 ci2 .stopped, [])
            | .ok st' s2 calls ci2 =>
              let r := renderLoop cancel pfuel win fuel st' s2 ci2
              (r.1, calls ++ r.2)
          else if chunk_type = 2 then
            match processTileHighlightChunk win s1 with
            | none => (.err, [])
            | some (_, s2, calls) =>
              let r := renderLoop cancel pfuel win fuel st s2 (ci + 1)
              (r.1, calls ++ r.2)
          else
            renderLoop cancel pfuel win fuel st (osRead s1 chunk_size).2 (ci + 1)

/-! ## Tile sequences and pixel sets (for the progress invariant) -/

/-- A decoded tile-data header (the `x, y, w, h` fields; uint32 values). -/
structure TileH where
  x : Nat
  y : Nat
  w : Nat
  h : Nat
  deriving Repr, DecidableEq

/-- The set of image pixels a tile covers. -/
def tilePixels (t : TileH) : Finset (Int × Int) :=
  Finset.Ico (t.x : Int) ((t.x : Int) + t.w) ×ˢ Finset.Ico (t.y : Int) ((t.y : Int) + t.h)

/-- The set of image pixels inside the render window. -/
def windowPixels (win : Window) : Finset (Int × Int) :=
  Finset.Ico win.min_x (win.max_x + 1) ×ˢ Finset.Ico win.min_y (win.max_y + 1)

/-- A tile lies fully inside the render window. -/
def insideWindow (win : Window) (t : TileH) : Prop :=
  win.min_x ≤ (t.x : Int) ∧ win.min_y ≤ (t.y : Int) ∧
  (t.x : Int) + t.w - 1 ≤ win.max_x ∧ (t.y : Int) + t.h - 1 ≤ win.max_y

/-- Sum of the tiles' own areas `w * h`. -/
def areaSum (tiles : List TileH) : Nat :=
  (tiles.map fun t => t.w * t.h).sum

/-- Union of the tiles' pixel sets. -/
def unionPixels (tiles : List TileH) : Finset (Int × Int) :=
  tiles.foldr (fun t acc => tilePixels t ∪ acc) ∅

/-- Driver state after a sequence of tile-data chunks is processed
(each chunk applied through `tileDataEffect`; payload contents do not
affect the progress counters). -/
def processTiles (win : Window) (st : DriverState) (tiles : List TileH) :
    DriverState :=
  tiles.foldl (fun st t => (tileDataEffect win t.x t.y t.w t.h [] st).2.1) st

/-! ## Shared clipping lemmas -/

/-- A tile fully inside the window is never rejected as outside, unless it is
degenerate (`w = 0` or `h = 0`), in which case its area is zero anyway. -/
theorem inside_not_outside (win : Window) (t : TileH)
    (hin : insideWindow win t) (hw : 1 ≤ t.w) (hh : 1 ≤ t.h) :
    tileOutside win t.x t.y t.w t.h = false := by
  obtain ⟨h1, h2, h3, h4⟩ := hin
  simp only [tileOutside, Bool.or_eq_false_iff, decide_eq_false_iff_not, not_lt]
  omega

/-- The clipped rectangle of a fully-inside tile is the tile itself. -/
theorem clipTile_inside (win : Window) (tile_x tile_y tile_w tile_h : Nat)
    (hx : win.min_x ≤ (tile_x : Int)) (hy : win.min_y ≤ (tile_y : Int))
    (hx2 : (tile_x : Int) + tile_w - 1 ≤ win.max_x)
    (hy2 : (tile_y : Int) + tile_h - 1 ≤ win.max_y) :
    (clipTile win tile_x tile_y tile_w tile_h).skip_x = 0 ∧
    (clipTile win tile_x tile_y tile_w tile_h).skip_y = 0 ∧
    (clipTile win tile_x tile_y tile_w tile_h).take_x = tile_w ∧
    (clipTile win tile_x tile_y tile_w tile_h).take_y = tile_h := by
  simp [clipTile]
  omega

/-! ## C8: fully-inside tiles clip to themselves -/

/-- C8: for a tile fully inside the render window
(`tile_x ≥ min_x`, `tile_y ≥ min_y`, `tile_x + w - 1 ≤ max_x`,
`tile_y + h - 1 ≤ max_y`), the clipped rectangle keeps the tile's own
dimensions (`take_x = w`, `take_y = h`) and `skip_x = skip_y = 0`. -/
theorem clip_inside_identity (win : Window) (tile_x tile_y tile_w tile_h : Nat)
    (hx : win.min_x ≤ (tile_x : Int)) (hy : win.min_y ≤ (tile_y : Int))
    (hx2 : (tile_x : Int) + tile_w - 1 ≤ win.max_x)
    (hy2 : (tile_y : Int) + tile_h - 1 ≤ win.max_y) :
    (clipTile win tile_x tile_y tile_w tile_h).skip_x = 0 ∧
    (clipTile win tile_x tile_y tile_w tile_h).skip_y = 0 ∧
    (clipTile win tile_x tile_y tile_w tile_h).take_x = tile_w ∧
    (clipTile win tile_x tile_y tile_w tile_h).take_y = tile_h :=
  clipTile_inside win tile_x tile_y tile_w tile_h hx hy hx2 hy2

/-- Witness for C8: a 4-by-5 tile at (2, 3) inside the 10-by-10 window. -/
theorem clip_inside_identity_witness :
    (clipTile ⟨0, 0, 9, 9⟩ 2 3 4 5).skip_x = 0 ∧
    (clipTile ⟨0, 0, 9, 9⟩ 2 3 4 5).skip_y = 0 ∧
    (clipTile ⟨0, 0, 9, 9⟩ 2 3 4 5).take_x = 4 ∧
    (clipTile ⟨0, 0, 9, 9⟩ 2 3 4 5).take_y = 5 :=
  clip_inside_identity ⟨0, 0, 9, 9⟩ 2 3 4 5
    (by decide) (by decide) (by decide) (by decide)

/-! ## C5: destination Y flip -/

/-- C5: the destination Y origin is `window.max_y - iy1`; a tile touching the
window's top edge (`tile_y + h - 1 = max_y`) lands at `dest_y0 = 0`, and one
touching the bottom edge (`tile_y = min_y`) satisfies
`dest_y0 + take_y - 1 = max_y - min_y`. -/
theorem dest_y_flip (win : Window) (tile_x tile_y tile_w tile_h : Nat) :
    (clipTile win tile_x tile_y tile_w tile_h).y0 =
      win.max_y - (clipTile win tile_x tile_y tile_w tile_h).iy1 ∧
    ((tile_y : Int) + tile_h - 1 = win.max_y →
      (clipTile win tile_x tile_y tile_w tile_h).y0 = 0) ∧
    ((tile_y : Int) = win.min_y →
      (clipTile win tile_x tile_y tile_w tile_h).y0 +
        (clipTile win tile_x tile_y tile_w tile_h).take_y - 1 =
        win.max_y - win.min_y) := by
  refine ⟨by simp [clipTile], fun htop => ?_, fun hbot => ?_⟩ <;>
    · simp [clipTile]
      omega

/-- Witness for C5: a full-height tile touches both edges of the window, so
both edge consequences hold at once. -/
theorem dest_y_flip_witness :
    (clipTile ⟨0, 0, 9, 9⟩ 0 0 4 10).y0 = 0 ∧
    (clipTile ⟨0, 0, 9, 9⟩ 0 0 4 10).y0 +
      (clipTile ⟨0, 0, 9, 9⟩ 0 0 4 10).take_y - 1 = 9 - 0 :=
  ⟨(dest_y_flip ⟨0, 0, 9, 9⟩ 0 0 4 10).2.1 (by decide),
   (dest_y_flip ⟨0, 0, 9, 9⟩ 0 0 4 10).2.2 (by decide)⟩

/-! ## C7: tiles fully outside the window are ignored -/

/-- C7: a tile fully outside the render window, in any of the four
directions, is reported outside; processing it changes neither
`rendered_pixels` nor `total_pixels`, makes no display-sink call, and both
chunk processors return `True` so the loop continues. -/
theorem outside_tile_no_effect (win : Window) (tile_x tile_y tile_w tile_h : Nat)
    (floats : List Nat) (st : DriverState)
    (hout : (tile_x : Int) > win.max_x ∨ (tile_x : Int) + tile_w - 1 < win.min_x ∨
      (tile_y : Int) > win.max_y ∨ (tile_y : Int) + tile_h - 1 < win.min_y) :
    tileOutside win tile_x tile_y tile_w tile_h = true ∧
    tileDataEffect win tile_x tile_y tile_w tile_h floats st = (true, st, []) ∧
    tileHighlightEffect win tile_x tile_y tile_w tile_h = (true, []) := by
  have hb : tileOutside win tile_x tile_y tile_w tile_h = true := by
    simp only [tileOutside, Bool.or_eq_true, decide_eq_true_eq]
    omega
  exact ⟨hb, by simp [tileDataEffect, hb], by simp [tileHighlightEffect, hb]⟩

/-- Witness for C7: a tile strictly right of the window. -/
theorem outside_tile_no_effect_witness :
    tileOutside ⟨0, 0, 9, 9⟩ 12 0 4 4 = true ∧
    tileDataEffect ⟨0, 0, 9, 9⟩ 12 0 4 4 [7] ⟨5, 100⟩ = (true, ⟨5, 100⟩, []) ∧
    tileHighlightEffect ⟨0, 0, 9, 9⟩ 12 0 4 4 = (true, []) :=
  outside_tile_no_effect ⟨0, 0, 9, 9⟩ 12 0 4 4 [7] ⟨5, 100⟩ (by left; decide)

/-! ## C9: highlight corner brackets -/

/-- C9: for every clipped highlight rectangle `{x0, y0, x1, y1}` the renderer
emits exactly 8 segments; each is either a horizontal arm — a
`min 5 (x1 - x0 + 1)`-by-1 solid-color rectangle — or a vertical arm — a
1-by-`min 5 (y1 - y0 + 1)` solid-color rectangle. -/
theorem highlight_brackets (x0 y0 x1 y1 : Int) :
    (highlightSegs x0 y0 x1 y1).length = 8 ∧
    ∀ c ∈ highlightSegs x0 y0 x1 y1,
      (c.h = 1 ∧ c.w = min 5 (x1 - x0 + 1) ∧
        c.pix = List.replicate (min 5 (x1 - x0 + 1)).toNat bracketColor) ∨
      (c.w = 1 ∧ c.h = min 5 (y1 - y0 + 1) ∧
        c.pix = List.replicate (min 5 (y1 - y0 + 1)).toNat bracketColor) := by
  refine ⟨rfl, fun c hc => ?_⟩
  simp only [highlightSegs, List.mem_cons, List.not_mem_nil, or_false] at hc
  rcases hc with rfl | rfl | rfl | rfl | rfl | rfl | rfl | rfl <;>
    simp [drawHline, drawVline]

/-- Witness for C9: on a 3-by-3 clipped tile both arm lengths clamp to 3, and
the top-left horizontal arm is a 3-by-1 solid-color segment. -/
theorem highlight_brackets_witness :
    (highlightSegs 0 0 2 2).length = 8 ∧
    (drawHline 0 2 3 bracketColor ∈ highlightSegs 0 0 2 2 ∧
      (((drawHline 0 2 3 bracketColor).h = 1 ∧
        (drawHline 0 2 3 bracketColor).w = min 5 (2 - 0 + 1) ∧
        (drawHline 0 2 3 bracketColor).pix =
          List.replicate (min 5 ((2 : Int) - 0 + 1)).toNat bracketColor) ∨
      ((drawHline 0 2 3 bracketColor).w = 1 ∧
        (drawHline 0 2 3 bracketColor).h = min 5 (2 - 0 + 1) ∧
        (drawHline 0 2 3 bracketColor).pix =
          List.replicate (min 5 ((2 : Int) - 0 + 1)).toNat bracketColor))) :=
  ⟨(highlight_brackets 0 0 2 2).1, by decide,
   (highlight_brackets 0 0 2 2).2 (drawHline 0 2 3 bracketColor) (by decide)⟩

/-! ## C3: row order inversion in the extracted pixel buffer -/

/-- Unfolding one destination row: the `y = take_y - 1` iteration comes
first, the remaining rows follow. -/
theorem extractPix_succ (floats : List Nat) (tile_w skip_x skip_y take_x h : Nat) :
    extractPix floats tile_w skip_x skip_y take_x (h + 1) =
      rowPixels floats tile_w skip_x skip_y take_x h ++
        extractPix floats tile_w skip_x skip_y take_x h := by
  simp [extractPix, List.range_succ]

/-- Each destination row holds `take_x` pixel slices. -/
theorem rowPixels_length (floats : List Nat) (tile_w skip_x skip_y take_x y : Nat) :
    (rowPixels floats tile_w skip_x skip_y take_x y).length = take_x := by
  simp [rowPixels]

/-- With no skip, a destination row is exactly a source row. -/
theorem rowPixels_no_skip (floats : List Nat) (w y : Nat) :
    rowPixels floats w 0 0 w y = srcRowPixels floats w y := by
  simp [rowPixels, srcRowPixels]

/-- Amended C3: for a tile-data chunk fully inside the window
(`skip_x = skip_y = 0`, `take_x = w`, `take_y = h`), destination row `j`
of the emitted buffer is source row `h - 1 - j`: rows come out in reversed
order, with the code's fixed four-samples-per-pixel slicing (so, per pixel,
the claim's value layout only when `channel_count = 4`). -/
theorem rows_reversed (floats : List Nat) (w h j : Nat) (hj : j < h) :
    ((extractPix floats w 0 0 w h).drop (j * w)).take w =
      srcRowPixels floats w (h - 1 - j) := by
  induction h generalizing j with
  | zero => omega
  | succ h ih =>
    rw [extractPix_succ]
    cases j with
    | zero =>
      rw [Nat.zero_mul, List.drop_zero,
        List.take_left' (rowPixels_length floats w 0 0 w h), rowPixels_no_skip]
      norm_num
    | succ j' =>
      have hlen : (Nat.succ j') * w =
          (rowPixels floats w 0 0 w h).length + j' * w := by
        rw [rowPixels_length, Nat.succ_mul, Nat.add_comm]
      rw [hlen, List.drop_append, ih j' (by omega)]
      congr 1
      omega

/-- IEEE-754 bit pattern of `10.0f`. -/
def w10bits : Nat := 1092616192

/-- IEEE-754 bit pattern of `20.0f`. -/
def w20bits : Nat := 1101004800

/-- Counterexample to C3 as stated: a 1-by-2 tile with `channel_count = 1`
and source samples `[10.0, 20.0]`, fully inside a 1-by-2 window.  The code
slices four floats per pixel regardless of the channel count, so the emitted
buffer is `[[], [10.0, 20.0]]` — its first row is empty rather than `[20.0]`
and its second row is not `[10.0]`. -/
theorem row_inversion_cex :
    (tileDataEffect ⟨0, 0, 0, 1⟩ 0 0 1 2
        (bytesToWords (encU32 w10bits ++ encU32 w20bits)) ⟨0, 2⟩).2.2 =
      [⟨0, 0, 1, 2, [[], [w10bits, w20bits]]⟩] ∧
    ([[], [w10bits, w20bits]] : List (List Nat)) ≠ [[w20bits], [w10bits]] := by
  constructor
  · decide
  · decide

/-- Witness for the amended C3: in a 1-by-2 tile (8 samples, i.e. 4 channels),
destination row 0 is source row 1. -/
theorem rows_reversed_witness :
    (0 : Nat) < 2 ∧
    ((extractPix [1, 2, 3, 4, 5, 6, 7, 8] 1 0 0 1 2).drop (0 * 1)).take 1 =
      srcRowPixels [1, 2, 3, 4, 5, 6, 7, 8] 1 (2 - 1 - 0) :=
  ⟨by decide, rows_reversed [1, 2, 3, 4, 5, 6, 7, 8] 1 2 0 (by decide)⟩

/-! ## The payload loop: exact reads and the end-of-stream hang -/

/-- As long as even the whole remaining stream cannot complete the payload
and cancellation is never requested, the payload `while` loop never exits:
`os.read` keeps returning empty byte strings and `len(tile_data)` stops
growing, but the loop condition stays true. -/
theorem payloadLoop_stuck (size : Nat) :
    ∀ (fuel : Nat) (acc : List Nat) (s : PipeStream) (ci : Nat),
      acc.length + s.data.length < size →
      payloadLoop (fun _ => false) fuel size acc s ci = none := by
  intro fuel
  induction fuel with
  | zero => intro acc s ci _; rfl
  | succ fuel ih =>
    intro acc s ci hlt
    have hnot : ¬ size ≤ acc.length := by omega
    simp only [payloadLoop, hnot, if_false, if_neg, Bool.false_eq_true, osRead]
    apply ih
    simp only [List.length_append, List.length_take, List.length_drop]
    omega

/-- When the source still holds at least `size - acc.length` bytes, every
delivery cap is positive, and cancellation is never requested, the payload
loop exits with exactly the first `size - acc.length` further bytes appended:
it loops on partial reads until precisely `size` bytes are collected. -/
theorem payloadLoop_complete (size : Nat) :
    ∀ (fuel : Nat) (acc : List Nat) (s : PipeStream) (ci : Nat),
      (∀ cp ∈ s.caps, 1 ≤ cp) →
      size ≤ acc.length + s.data.length →
      size - acc.length < fuel →
      ∃ s2 ci2,
        payloadLoop (fun _ => false) fuel size acc s ci =
          some (acc ++ s.data.take (size - acc.length), s2, ci2) ∧
        s2.data = s.data.drop (size - acc.length) := by
  intro fuel
  induction fuel with
  | zero => intro acc s ci _ _ h; omega
  | succ fuel ih =>
    intro acc s ci hcaps hdata hfuel
    by_cases hdone : size ≤ acc.length
    · refine ⟨s, ci, ?_, ?_⟩
      · simp only [payloadLoop, hdone, if_true, Nat.sub_eq_zero_of_le hdone,
          List.take_zero, List.append_nil]
      · simp [Nat.sub_eq_zero_of_le hdone]
    · have hneed : 1 ≤ size - acc.length := by omega
      have hcap : 1 ≤ s.caps.headD (size - acc.length) := by
        cases hc : s.caps with
        | nil => simpa [hc] using hneed
        | cons c cs => exact hcaps c (by simp [hc])
      -- the single `os.read` of this iteration
      have hk : 1 ≤ min (size - acc.length) (s.caps.headD (size - acc.length)) := by
        omega
      obtain ⟨s2, ci2, hrec, hdat⟩ :=
        ih (acc ++ (osRead s (size - acc.length)).1) (osRead s (size - acc.length)).2
          (ci + 1)
          (by
            intro cp hcp
            exact hcaps cp (List.mem_of_mem_tail (by simpa [osRead] using hcp)))
          (by
            simp only [osRead, List.length_append, List.length_take, List.length_drop]
            omega)
          (by
            simp only [osRead, List.length_append, List.length_take]
            omega)
      refine ⟨s2, ci2, ?_, ?_⟩
      · simp only [payloadLoop, hdone, if_false, if_neg, Bool.false_eq_true]
        rw [hrec]
        congr 2
        · -- acc ++ take k ++ take (rest) = acc ++ take (size - acc.length)
          simp only [osRead, List.append_assoc, List.length_append, List.length_take]
          congr 1
          rw [← List.take_add]
          congr 1
          omega
      · rw [hdat]
        simp only [osRead, List.drop_drop, List.length_append, List.length_take]
        congr 1
        omega

/-! ## C1: exact-read behavior of the fixed-size reads -/

/-- Counterexample to C1 as stated: the 8-byte chunk-header read is a single
`os.read`.  If the pipe delivers only 4 of the 8 requested bytes, the read
returns a 4-byte buffer — neither exactly 8 bytes nor EndOfStream — and that
short buffer goes straight into `struct.unpack("II")`, which fails. -/
theorem exact_read_cex :
    (osRead ⟨[1, 0, 0, 0, 12, 0, 0, 0], [4]⟩ 8).1.length = 4 ∧
    (osRead ⟨[1, 0, 0, 0, 12, 0, 0, 0], [4]⟩ 8).1 ≠ [] ∧
    (readChunkHeader ⟨[1, 0, 0, 0, 12, 0, 0, 0], [4]⟩).1 = some none := by
  refine ⟨by decide, by decide, by decide⟩

/-- Amended C1: only the tile-data payload read loops on partial reads, and
it does collect exactly `n` bytes whenever the source still holds them
(positive delivery caps, no cancellation); the header reads are single
`os.read` calls, and an empty chunk-header read is reported as end of
stream. -/
theorem payload_read_exact (s : PipeStream) (size ci : Nat)
    (hcaps : ∀ cp ∈ s.caps, 1 ≤ cp) (hdata : size ≤ s.data.length) :
    (∃ s2 ci2,
      payloadLoop (fun _ => false) (size + 1) size [] s ci =
        some (s.data.take size, s2, ci2) ∧
      (s.data.take size).length = size ∧
      s2.data = s.data.drop size) ∧
    (∀ caps, (readChunkHeader ⟨[], caps⟩).1 = none) := by
  constructor
  · obtain ⟨s2, ci2, h1, h2⟩ :=
      payloadLoop_complete size (size + 1) [] s ci hcaps (by simpa using hdata)
        (by simp)
    refine ⟨s2, ci2, by simpa using h1, ?_, by simpa using h2⟩
    simp only [List.length_take]
    omega
  · intro caps
    simp [readChunkHeader, osRead]

/-- Witness for the amended C1: three payload bytes delivered under caps of
two bytes per read are still collected exactly. -/
theorem payload_read_exact_witness :
    (∃ s2 ci2,
      payloadLoop (fun _ => false) (3 + 1) 3 [] ⟨[5, 6, 7], [2, 2]⟩ 0 =
        some (([5, 6, 7] : List Nat).take 3, s2, ci2) ∧
      (([5, 6, 7] : List Nat).take 3).length = 3 ∧
      s2.data = ([5, 6, 7] : List Nat).drop 3) ∧
    (∀ caps, (readChunkHeader ⟨[], caps⟩).1 = none) :=
  payload_read_exact ⟨[5, 6, 7], [2, 2]⟩ 3 0 (by decide) (by decide)

/-! ## C2: end-of-stream in the middle of a tile-data payload -/

/-- A stream carrying the 20-byte header of a 4-by-4, 1-channel tile
(declaring a 64-byte payload) followed by only 32 payload bytes, after which
the child process closes the pipe. -/
def truncatedTileStream : PipeStream :=
  ⟨[0, 0, 0, 0, 0, 0, 0, 0, 4, 0, 0, 0, 4, 0, 0, 0, 1, 0, 0, 0] ++
    List.replicate 32 0, []⟩

/-- C2 (code bug): when the stream ends in the middle of a tile-data payload
and cancellation is never requested, `__process_tile_data_chunk` never
returns, for any number of loop iterations: `os.read` keeps returning empty
byte strings and the `while` loop busy-spins.  The decode neither fails nor
stops the driver, the process is not terminated, and no sink call is made —
the claimed clean failure never happens. -/
theorem truncated_payload_hangs (fuel : Nat) (win : Window) (st : DriverState)
    (ci : Nat) :
    processTileDataChunk (fun _ => false) fuel win st truncatedTileStream ci =
      TDResult.stuck := by
  have hread : osRead truncatedTileStream 20 =
      ([0, 0, 0, 0, 0, 0, 0, 0, 4, 0, 0, 0, 4, 0, 0, 0, 1, 0, 0, 0],
        ⟨List.replicate 32 0, []⟩) := by decide
  have hstuck := payloadLoop_stuck 64 fuel [] ⟨List.replicate 32 0, []⟩ ci (by simp)
  simp only [processTileDataChunk, hread, unpackIIIII]
  norm_num [le32]
  rw [hstuck]

/-! ## C6: unknown chunk types are skipped -/

/-- Little-endian round trip for 32-bit field values. -/
theorem le32_encU32 (v : Nat) (hv : v < 4294967296) :
    le32 (v % 256) (v / 256 % 256) (v / 65536 % 256) (v / 16777216 % 256) = v := by
  simp only [le32]
  omega

/-- Parsing with `struct.unpack("II")` recovers the two encoded header fields. -/
theorem unpackII_enc (t sz : Nat) (ht : t < 4294967296) (hsz : sz < 4294967296) :
    unpackII (encU32 t ++ encU32 sz) = some (t, sz) := by
  simp only [encU32, List.cons_append, List.nil_append, unpackII]
  rw [le32_encU32 t ht, le32_encU32 sz hsz]

/-- Counterexample to C6 as stated: the skip of an unknown chunk is a single
`os.read(fd, chunk_size)`.  With 12 payload bytes announced but only 6
delivered by the pipe on that call, the decoder consumes 6 bytes, not 12:
the remaining stream still starts with the last 6 payload bytes, so the next
header read is desynchronized. -/
theorem unknown_chunk_cex :
    (osRead ⟨List.replicate 12 7 ++ [2, 0, 0, 0], [6]⟩ 12).1.length = 6 ∧
    (osRead ⟨List.replicate 12 7 ++ [2, 0, 0, 0], [6]⟩ 12).2.data ≠
      (List.replicate 12 7 ++ [2, 0, 0, 0]).drop 12 :=
  ⟨by decide, by decide⟩

/-- Amended C6: for a chunk whose type is neither 1 nor 2, the decoder issues
a single read of `size` bytes; when the pipe delivers them in one call, the
chunk is consumed exactly and the loop goes on reading the next chunk header
from the rest of the stream, with no display-sink call and no change to the
driver state: one iteration on the unknown chunk equals the loop restarted
after it. -/
theorem unknown_chunk_skipped (cancel : Nat → Bool) (pfuel : Nat) (win : Window)
    (fuel : Nat) (st : DriverState) (ci : Nat) (t sz : Nat)
    (payload rest : List Nat) (hcan : cancel ci = false)
    (ht1 : t ≠ 1) (ht2 : t ≠ 2) (ht : t < 4294967296) (hsz : sz < 4294967296)
    (hpl : payload.length = sz) :
    renderLoop cancel pfuel win (fuel + 1) st
      ⟨encU32 t ++ encU32 sz ++ payload ++ rest, []⟩ ci =
    renderLoop cancel pfuel win fuel st ⟨rest, []⟩ (ci + 1) := by
  have hlen8 : (encU32 t ++ encU32 sz).length = 8 := by simp [encU32]
  have hassoc : encU32 t ++ encU32 sz ++ payload ++ rest =
      (encU32 t ++ encU32 sz) ++ (payload ++ rest) := by
    simp [List.append_assoc]
  have h8 : osRead ⟨encU32 t ++ encU32 sz ++ payload ++ rest, []⟩ 8 =
      (encU32 t ++ encU32 sz, ⟨payload ++ rest, []⟩) := by
    simp only [osRead, List.headD_nil, Nat.min_self, List.tail_nil, hassoc]
    rw [List.take_left' hlen8, List.drop_left' hlen8]
  have hsk : osRead ⟨payload ++ rest, []⟩ sz = (payload, ⟨rest, []⟩) := by
    simp only [osRead, List.headD_nil, Nat.min_self, List.tail_nil]
    rw [List.take_left' hpl, List.drop_left' hpl]
  have hne : encU32 t ++ encU32 sz ≠ [] := by simp [encU32]
  simp only [renderLoop, hcan, Bool.false_eq_true, if_false, h8, hne, if_neg,
    unpackII_enc t sz ht hsz, ht1, ht2, if_false, hsk]

/-- Witness for the amended C6: a fully delivered `type = 99, size = 12`
chunk is skipped and the loop resumes on the rest of the stream. -/
theorem unknown_chunk_skipped_witness :
    renderLoop (fun _ => false) 3 ⟨0, 0, 9, 9⟩ (0 + 1) ⟨0, 100⟩
      ⟨encU32 99 ++ encU32 12 ++ List.replicate 12 5 ++ [1, 2, 3], []⟩ 0 =
    renderLoop (fun _ => false) 3 ⟨0, 0, 9, 9⟩ 0 ⟨0, 100⟩ ⟨[1, 2, 3], []⟩ (0 + 1) :=
  unknown_chunk_skipped (fun _ => false) 3 ⟨0, 0, 9, 9⟩ 0 ⟨0, 100⟩ 0 99 12
    (List.replicate 12 5) [1, 2, 3] rfl (by decide) (by decide) (by decide)
    (by decide) (by decide)

/-! ## C10: the payload is consumed before the clipping test -/

/-- Parsing with `struct.unpack("IIIII")` recovers the five tile-header fields. -/
theorem unpackIIIII_enc (x y w h c : Nat) (hx : x < 4294967296)
    (hy : y < 4294967296) (hw : w < 4294967296) (hh : h < 4294967296)
    (hc : c < 4294967296) :
    unpackIIIII (encU32 x ++ encU32 y ++ encU32 w ++ encU32 h ++ encU32 c) =
      some (x, y, w, h, c) := by
  simp only [encU32, List.cons_append, List.nil_append, unpackIIIII]
  rw [le32_encU32 x hx, le32_encU32 y hy, le32_encU32 w hw, le32_encU32 h hh,
    le32_encU32 c hc]

/-- C10: for every tile-data chunk whose payload the source delivers, the
full `w * h * c * 4` payload bytes are consumed from the stream and the
chunk processor returns `True`, leaving the stream positioned exactly at the
next chunk header — for every render window, hence in particular when the
tile is then found fully outside the window and discarded. -/
theorem payload_consumed_before_clip (win : Window) (st : DriverState)
    (ci : Nat) (x y w h c : Nat) (payload rest : List Nat)
    (hx : x < 4294967296) (hy : y < 4294967296) (hw : w < 4294967296)
    (hh : h < 4294967296) (hc : c < 4294967296)
    (hpl : payload.length = w * h * c * 4) :
    ∃ st2 s2 calls ci2,
      processTileDataChunk (fun _ => false) (w * h * c * 4 + 1) win st
        ⟨encU32 x ++ encU32 y ++ encU32 w ++ encU32 h ++ encU32 c ++
          payload ++ rest, []⟩ ci = TDResult.ok st2 s2 calls ci2 ∧
      s2.data = rest := by
  have hlen20 : (encU32 x ++ encU32 y ++ encU32 w ++ encU32 h ++ encU32 c).length
      = 20 := by simp [encU32]
  have hassoc : encU32 x ++ encU32 y ++ encU32 w ++ encU32 h ++ encU32 c ++
      payload ++ rest =
      (encU32 x ++ encU32 y ++ encU32 w ++ encU32 h ++ encU32 c) ++
        (payload ++ rest) := by
    simp [List.append_assoc]
  have h20 : osRead ⟨encU32 x ++ encU32 y ++ encU32 w ++ encU32 h ++ encU32 c ++
      payload ++ rest, []⟩ 20 =
      (encU32 x ++ encU32 y ++ encU32 w ++ encU32 h ++ encU32 c,
        ⟨payload ++ rest, []⟩) := by
    simp only [osRead, List.headD_nil, Nat.min_self, List.tail_nil, hassoc]
    rw [List.take_left' hlen20, List.drop_left' hlen20]
  obtain ⟨s2, ci2, hloop, hdat⟩ :=
    payloadLoop_complete (w * h * c * 4) (w * h * c * 4 + 1) []
      ⟨payload ++ rest, []⟩ ci (by simp) (by simp; omega) (by simp)
  have hloop2 : payloadLoop (fun _ => false) (w * h * c * 4 + 1) (w * h * c * 4)
      [] ⟨payload ++ rest, []⟩ ci = some (payload, s2, ci2) := by
    rw [hloop]
    congr 1
    congr 1
    simpa using List.take_left' hpl
  have hdat2 : s2.data = rest := by
    rw [hdat]
    simpa using List.drop_left' hpl
  simp only [processTileDataChunk, h20,
    unpackIIIII_enc x y w h c hx hy hw hh hc, hloop2, Bool.false_eq_true,
    if_false]
  exact ⟨_, _, _, _, rfl, hdat2⟩

/-- Witness for C10: a 1-by-1, 1-channel tile at (5, 0), fully outside the
0..3 square window, still consumes its 4 payload bytes and leaves the
stream at the next header byte. -/
theorem payload_consumed_before_clip_witness :
    ∃ st2 s2 calls ci2,
      processTileDataChunk (fun _ => false) (1 * 1 * 1 * 4 + 1) ⟨0, 0, 3, 3⟩
        ⟨0, 16⟩
        ⟨encU32 5 ++ encU32 0 ++ encU32 1 ++ encU32 1 ++ encU32 1 ++
          [1, 2, 3, 4] ++ [9], []⟩ 0 = TDResult.ok st2 s2 calls ci2 ∧
      s2.data = [9] :=
  payload_consumed_before_clip ⟨0, 0, 3, 3⟩ ⟨0, 16⟩ 0 5 0 1 1 1 [1, 2, 3, 4] [9]
    (by decide) (by decide) (by decide) (by decide) (by decide) (by decide)

/-! ## C4: progress accounting over a sequence of accepted tiles -/

/-- A tile covers `w * h` pixels. -/
theorem tilePixels_card (t : TileH) : (tilePixels t).card = t.w * t.h := by
  simp only [tilePixels, Finset.card_product, Int.card_Ico, add_sub_cancel_left,
    Int.toNat_natCast]

/-- A tile fully inside the window covers only window pixels. -/
theorem tilePixels_subset (win : Window) (t : TileH) (hin : insideWindow win t) :
    tilePixels t ⊆ windowPixels win := by
  obtain ⟨h1, h2, h3, h4⟩ := hin
  exact Finset.product_subset_product
    (Finset.Ico_subset_Ico h1 (by omega)) (Finset.Ico_subset_Ico h2 (by omega))

/-- A tile disjoint from every tile of a list is disjoint from their union. -/
theorem disjoint_unionPixels (t : TileH) (l : List TileH)
    (h : ∀ b ∈ l, Disjoint (tilePixels t) (tilePixels b)) :
    Disjoint (tilePixels t) (unionPixels l) := by
  induction l with
  | nil => simp [unionPixels]
  | cons b l ih =>
    simp only [unionPixels, List.foldr_cons, Finset.disjoint_union_right]
    exact ⟨h b (List.mem_cons_self b l),
      ih fun b2 hb2 => h b2 (List.mem_cons_of_mem b hb2)⟩

/-- Pairwise-disjoint tiles cover exactly the sum of their areas. -/
theorem card_unionPixels (l : List TileH)
    (hp : l.Pairwise fun a b => Disjoint (tilePixels a) (tilePixels b)) :
    (unionPixels l).card = areaSum l := by
  induction l with
  | nil => simp [unionPixels, areaSum]
  | cons t l ih =>
    obtain ⟨hhead, htail⟩ := List.pairwise_cons.mp hp
    have hcons : unionPixels (t :: l) = tilePixels t ∪ unionPixels l := rfl
    rw [hcons, Finset.card_union_of_disjoint (disjoint_unionPixels t l hhead),
      tilePixels_card, ih htail]
    simp [areaSum]

/-- Tiles all inside the window cover only window pixels. -/
theorem unionPixels_subset (win : Window) (l : List TileH)
    (h : ∀ t ∈ l, insideWindow win t) : unionPixels l ⊆ windowPixels win := by
  induction l with
  | nil => simp [unionPixels]
  | cons t l ih =>
    simp only [unionPixels, List.foldr_cons]
    exact Finset.union_subset
      (tilePixels_subset win t (h t (List.mem_cons_self t l)))
      (ih fun b hb => h b (List.mem_cons_of_mem t hb))

/-- Pairwise-disjoint tiles inside the window cannot cover more than the
window's pixel count. -/
theorem areaSum_le_window (win : Window) (l : List TileH)
    (hin : ∀ t ∈ l, insideWindow win t)
    (hp : l.Pairwise fun a b => Disjoint (tilePixels a) (tilePixels b)) :
    areaSum l ≤ (windowPixels win).card := by
  rw [← card_unionPixels l hp]
  exact Finset.card_le_card (unionPixels_subset win l hin)

/-- An accepted fully-inside tile adds exactly its own area `w * h` to
`rendered_pixels` (its clipped extent is itself; a degenerate tile of zero
width or height that the outside test discards adds its area 0). -/
theorem tileDataEffect_rendered_inside (win : Window) (t : TileH)
    (fl : List Nat) (st : DriverState) (hin : insideWindow win t) :
    (tileDataEffect win t.x t.y t.w t.h fl st).2.1.rendered =
      st.rendered + (t.w * t.h : Nat) := by
  obtain ⟨h1, h2, h3, h4⟩ := hin
  by_cases hout : tileOutside win t.x t.y t.w t.h
  · have hz : t.w = 0 ∨ t.h = 0 := by
      simp only [tileOutside, Bool.or_eq_true, decide_eq_true_eq] at hout
      omega
    have hwh : t.w * t.h = 0 := by
      rcases hz with hz | hz <;> simp [hz]
    simp [tileDataEffect, hout, hwh]
  · obtain ⟨_, _, htx, hty⟩ := clipTile_inside win t.x t.y t.w t.h h1 h2 h3 h4
    simp only [tileDataEffect, hout, Bool.false_eq_true, if_false, htx, hty]
    push_cast
    ring

/-- Processing a sequence of fully-inside tile-data chunks accumulates the
sum of the tiles' areas onto `rendered_pixels`. -/
theorem processTiles_rendered (win : Window) :
    ∀ (tiles : List TileH) (st : DriverState),
      (∀ t ∈ tiles, insideWindow win t) →
      (processTiles win st tiles).rendered = st.rendered + (areaSum tiles : Nat) := by
  intro tiles
  induction tiles with
  | nil => intro st _; simp [processTiles, areaSum]
  | cons t ts ih =>
    intro st hin
    have hstep : processTiles win st (t :: ts) =
        processTiles win (tileDataEffect win t.x t.y t.w t.h [] st).2.1 ts := rfl
    rw [hstep, ih _ fun b hb => hin b (List.mem_cons_of_mem t hb),
      tileDataEffect_rendered_inside win t [] st (hin t (List.mem_cons_self t ts))]
    have : areaSum (t :: ts) = t.w * t.h + areaSum ts := by
      simp [areaSum]
    rw [this]
    push_cast
    ring

/-- Processing tile-data chunks never touches `total_pixels`. -/
theorem processTiles_total (win : Window) :
    ∀ (tiles : List TileH) (st : DriverState),
      (processTiles win st tiles).total = st.total := by
  intro tiles
  induction tiles with
  | nil => intro st; rfl
  | cons t ts ih =>
    intro st
    have hstep : processTiles win st (t :: ts) =
        processTiles win (tileDataEffect win t.x t.y t.w t.h [] st).2.1 ts := rfl
    rw [hstep, ih]
    by_cases hout : tileOutside win t.x t.y t.w t.h <;>
      simp [tileDataEffect, hout]

/-- C4: over any sequence of pairwise-non-overlapping, fully-inside
tile-data chunks, `rendered_pixels` ends up exactly at the sum of the tiles'
areas, `total_pixels` stays at its initial
`(window width) * (window height) * pass_count`, and the reported fraction
`rendered_pixels / total_pixels` does not exceed 1. -/
theorem progress_sum_bounded (win : Window) (passes : Nat) (tiles : List TileH)
    (st0 : DriverState) (hwx : win.min_x ≤ win.max_x)
    (hwy : win.min_y ≤ win.max_y) (hp : 1 ≤ passes) (hr0 : st0.rendered = 0)
    (ht0 : st0.total = totalPixels win passes)
    (hin : ∀ t ∈ tiles, insideWindow win t)
    (hdisj : tiles.Pairwise fun a b => Disjoint (tilePixels a) (tilePixels b)) :
    (processTiles win st0 tiles).rendered = (areaSum tiles : Nat) ∧
    (processTiles win st0 tiles).total = st0.total ∧
    ((processTiles win st0 tiles).rendered : ℚ) /
      ((processTiles win st0 tiles).total : ℚ) ≤ 1 := by
  have hA : (0 : Int) < win.max_x - win.min_x + 1 := by omega
  have hB : (0 : Int) < win.max_y - win.min_y + 1 := by omega
  have hP : (0 : Int) < (passes : Int) := by exact_mod_cast hp
  have htotpos : 0 < totalPixels win passes := mul_pos (mul_pos hA hB) hP
  have hcard : ((windowPixels win).card : Int) =
      (win.max_x - win.min_x + 1) * (win.max_y - win.min_y + 1) := by
    simp only [windowPixels, Finset.card_product, Int.card_Ico]
    push_cast
    rw [Int.toNat_of_nonneg (by omega), Int.toNat_of_nonneg (by omega)]
    ring
  have hsum : (areaSum tiles : Int) ≤
      (win.max_x - win.min_x + 1) * (win.max_y - win.min_y + 1) := by
    rw [← hcard]
    exact_mod_cast areaSum_le_window win tiles hin hdisj
  have hletot : (areaSum tiles : Int) ≤ totalPixels win passes := by
    calc (areaSum tiles : Int)
        ≤ (win.max_x - win.min_x + 1) * (win.max_y - win.min_y + 1) := hsum
      _ = (win.max_x - win.min_x + 1) * (win.max_y - win.min_y + 1) * 1 :=
          (mul_one _).symm
      _ ≤ (win.max_x - win.min_x + 1) * (win.max_y - win.min_y + 1) * passes := by
          apply mul_le_mul_of_nonneg_left (by exact_mod_cast hp)
          exact le_of_lt (mul_pos hA hB)
      _ = totalPixels win passes := rfl
  have hrend : (processTiles win st0 tiles).rendered = (areaSum tiles : Nat) := by
    rw [processTiles_rendered win tiles st0 hin, hr0, zero_add]
  have htot : (processTiles win st0 tiles).total = st0.total :=
    processTiles_total win tiles st0
  refine ⟨hrend, htot, ?_⟩
  rw [hrend, htot, ht0, div_le_one (by exact_mod_cast htotpos)]
  exact_mod_cast hletot

instance (win : Window) (t : TileH) : Decidable (insideWindow win t) := by
  unfold insideWindow
  infer_instance

/-- Witness for C4: two disjoint unit tiles in a 2-by-2 window, one pass:
`rendered_pixels = 2`, `total_pixels = 4`, fraction 1/2. -/
theorem progress_sum_bounded_witness :
    (processTiles ⟨0, 0, 1, 1⟩ ⟨0, 4⟩ [⟨0, 0, 1, 1⟩, ⟨1, 1, 1, 1⟩]).rendered =
      (areaSum [⟨0, 0, 1, 1⟩, ⟨1, 1, 1, 1⟩] : Nat) ∧
    (processTiles ⟨0, 0, 1, 1⟩ ⟨0, 4⟩ [⟨0, 0, 1, 1⟩, ⟨1, 1, 1, 1⟩]).total =
      (⟨0, 4⟩ : DriverState).total ∧
    ((processTiles ⟨0, 0, 1, 1⟩ ⟨0, 4⟩ [⟨0, 0, 1, 1⟩, ⟨1, 1, 1, 1⟩]).rendered : ℚ) /
      ((processTiles ⟨0, 0, 1, 1⟩ ⟨0, 4⟩ [⟨0, 0, 1, 1⟩, ⟨1, 1, 1, 1⟩]).total : ℚ) ≤ 1 :=
  progress_sum_bounded ⟨0, 0, 1, 1⟩ 1 [⟨0, 0, 1, 1⟩, ⟨1, 1, 1, 1⟩] ⟨0, 4⟩
    (by decide) (by decide) (by decide) rfl (by decide) (by decide) (by decide)
